import Mathlib

/-!
Verification of the mclib Minecraft protocol library.

Shallow embedding of the packet codec (`packet/outbound.go`, `packet/inbound.go`),
the client connection state machine (`client.go`) and the fingerprint heuristic
engine (`fingerprint/fingerprint.go` and its revised copy) into Lean.

Bytes are modelled as `Nat` values below 256, byte streams as `List Nat`.
Go's `int32`/`int64` values are modelled as `Int` with explicit two's-complement
reduction (`% 2^32` / `% 2^64`) where the Go code converts or truncates.
Go runtime panics (out-of-range slice writes, `make` with a negative length)
are modelled as an explicit `panicked` result distinct from returned errors.
-/

deriving instance DecidableEq for Except

namespace Mclib

/-- `MaxPacketLength` from `packet/outbound.go`. -/
def MaxPacketLength : Int := 2097151

/-- `MaxStringLength` from `packet/outbound.go`. -/
def MaxStringLength : Int := 32767

/-- Fuel-indexed helper for `putUvarint`.  The fuel only serves structural
recursion; ten groups always suffice for the 64-bit domain of
Go `encoding/binary.PutUvarint` (`binary.MaxVarintLen64 = 10`). -/
def putUvarintF : Nat → Nat → List Nat
  | 0, _ => []
  | f + 1, x => if x < 128 then [x] else (x % 128 + 128) :: putUvarintF f (x / 128)

/-- Go `encoding/binary.PutUvarint` byte output for a `uint64` value:
7-bit groups, least significant first, continuation bit 0x80 on all but the
last byte.  The Go loop writes `byte(x)|0x80` (which equals `x%128 + 128`)
while `x >= 0x80`, then `byte(x)`. -/
def putUvarint (x : Nat) : List Nat :=
  putUvarintF 10 x

/-- `encodeVarInt` from `packet/outbound.go` (also the byte output of
`OutboundPacket.WriteVarInt`): `PutUvarint(uint64(value))` into a buffer of
`binary.MaxVarintLen32 = 5` bytes.  `uint64(value)` sign-extends the `int32`
argument, so a negative value needs 10 bytes and the write overruns the
buffer: Go panics with an index-out-of-range; that case is modelled as
`none`. -/
def encodeVarInt (n : Int) : Option (List Nat) :=
  let bytes := putUvarint ((n % (2 ^ 64)).toNat)
  if bytes.length ≤ 5 then some bytes else none

/-- Byte output of `OutboundPacket.WriteVarLong` from `packet/outbound.go`:
`PutUvarint(uint64(n))` into a buffer of `binary.MaxVarintLen64 = 10` bytes,
which always suffices for a 64-bit value. -/
def writeVarLongBytes (n : Int) : List Nat :=
  putUvarint ((n % (2 ^ 64)).toNat)

/-- Go conversion `int32(x)` of an unsigned value: keep the low 32 bits,
interpreted in two's complement. -/
def toInt32 (x : Nat) : Int :=
  if x % 2 ^ 32 < 2 ^ 31 then ((x % 2 ^ 32 : Nat) : Int)
  else ((x % 2 ^ 32 : Nat) : Int) - 2 ^ 32

/-- Go conversion `int64(x)` of an unsigned value: keep the low 64 bits,
interpreted in two's complement. -/
def toInt64 (x : Nat) : Int :=
  if x % 2 ^ 64 < 2 ^ 63 then ((x % 2 ^ 64 : Nat) : Int)
  else ((x % 2 ^ 64 : Nat) : Int) - 2 ^ 64

/-- Errors surfaced by the codec.  Each constructor stands for one of the
`fmt.Errorf`/`io` error values produced by the Go code. -/
inductive RErr where
  /-- `io.EOF`: a read found no byte at all. -/
  | eof
  /-- `io.ErrUnexpectedEOF`: a read found fewer bytes than required. -/
  | unexpectedEOF
  /-- `binary.errOverflow`: a uvarint did not terminate within 10 bytes
  (or its tenth byte exceeded 1). -/
  | overflow
  /-- "varint is too long" from `readVarInt` in `packet/inbound.go`. -/
  | varintTooLong
  /-- "received packet is too long" from `NewInboundPacket`. -/
  | frameTooLong
  /-- "received string exceeds the max string length" from `ReadString`. -/
  | stringTooLong
  /-- "read length cannot be negative" from `readBytes`. -/
  | negativeLength
deriving DecidableEq, Repr

/-- Loop body of Go `encoding/binary.ReadUvarint` (used by
`InboundPacket.ReadVarInt` in `packet/inbound.go`): up to
`MaxVarintLen64 = 10` bytes; a terminating byte (`b < 0x80`) at index 9 must
be at most 1, otherwise the value overflows; ten continuation bytes are an
overflow.  `x` accumulates `x | uint64(b&0x7f)<<s` with 64-bit truncation;
`sh` is the shift `s`, `i` the byte index. -/
def readUvarintAux : List Nat → Nat → Nat → Nat → Except RErr (Nat × List Nat)
  | _, _, _, _ + 10 => .error .overflow
  | [], _, _, i => .error (if i > 0 then .unexpectedEOF else .eof)
  | b :: rest, x, sh, i =>
    if b < 128 then
      if i = 9 ∧ b > 1 then .error .overflow
      else .ok (x ||| (b <<< sh) % 2 ^ 64, rest)
    else readUvarintAux rest (x ||| ((b % 128) <<< sh) % 2 ^ 64) (sh + 7) (i + 1)

/-- Go `encoding/binary.ReadUvarint` on a byte stream, returning the decoded
value and the unconsumed remainder. -/
def readUvarint (s : List Nat) : Except RErr (Nat × List Nat) :=
  readUvarintAux s 0 0 0

/-- `InboundPacket.ReadVarInt` from `packet/inbound.go`:
`binary.ReadUvarint` followed by the Go conversion `int32(n)`. -/
def readVarIntPkt (s : List Nat) : Except RErr (Int × List Nat) :=
  match readUvarint s with
  | .error e => .error e
  | .ok (n, rest) => .ok (toInt32 n, rest)

/-- `InboundPacket.ReadVarLong` from `packet/inbound.go`: it calls
`p.ReadVarInt()` and widens the resulting `int32` with `int64(n)`, which
preserves the (already truncated) value. -/
def readVarLongPkt (s : List Nat) : Except RErr (Int × List Nat) :=
  match readVarIntPkt s with
  | .error e => .error e
  | .ok (n, rest) => .ok (n, rest)

/-- Loop of `readVarInt` from `packet/inbound.go` (the connection-level
varint reader used for the frame length).  `num` holds the unsigned 32-bit
image of the Go `int32` accumulator: `num |= int32(b&0x7F) << shift` is
modelled as a bitwise or of `((b % 128) <<< shift) % 2^32`.  The byte test
`b&0x80 == 0` is `b / 128 % 2 = 0`.  After five continuation bytes the shift
reaches 35 and the read fails with "varint is too long". -/
def readVarIntLoop : List Nat → Nat → Nat → Except RErr (Int × List Nat)
  | [], _, _ => .error .eof
  | b :: rest, num, sh =>
    let num' := num ||| ((b % 128) <<< sh) % 2 ^ 32
    if b / 128 % 2 = 0 then .ok (toInt32 num', rest)
    else if sh + 7 ≥ 32 then .error .varintTooLong
    else readVarIntLoop rest num' (sh + 7)

/-- `readVarInt` from `packet/inbound.go`, reading from a byte stream. -/
def readVarInt (s : List Nat) : Except RErr (Int × List Nat) :=
  readVarIntLoop s 0 0

/-- Result of `OutboundPacket.Build` from `packet/outbound.go`.  `panicked`
models the Go runtime panic of `encodeVarInt` on a negative id. -/
inductive BuildRes where
  | built (frame : List Nat)
  /-- "packet exceeds max packet length" error. -/
  | tooLarge
  | panicked
deriving DecidableEq, Repr

/-- `OutboundPacket.Build` from `packet/outbound.go` for a packet with the
given id and accumulated body: prepend `encodeVarInt(id)`, reject a payload
longer than `MaxPacketLength`, then prepend the varint of the total
length. -/
def build (id : Int) (body : List Nat) : BuildRes :=
  match encodeVarInt id with
  | none => .panicked
  | some idB =>
    let pkt := idB ++ body
    if (pkt.length : Int) > MaxPacketLength then .tooLarge
    else
      match encodeVarInt (pkt.length : Int) with
      | none => .panicked
      | some lenB => .built (lenB ++ pkt)

/-- Result of `NewInboundPacket` from `packet/inbound.go`: the decoded packet
(id plus the body bytes left for typed reads), a returned error, or a Go
runtime panic. -/
inductive InRes where
  | ok (id : Int) (rest : List Nat)
  | err (e : RErr)
  /-- `make([]byte, length)` with a negative `length` panics at runtime. -/
  | panicked
deriving DecidableEq, Repr

/-- `NewInboundPacket` from `packet/inbound.go` on a byte stream: read a
varint frame length with `readVarInt`, reject lengths above
`MaxPacketLength`, allocate and fill the body (a negative decoded length
reaches `make([]byte, length)` and panics; a short stream fails `io.ReadFull`),
then read the packet id from the body with `ReadVarInt`
(`binary.ReadUvarint`). -/
def newInboundPacket (s : List Nat) : InRes :=
  match readVarInt s with
  | .error e => .err e
  | .ok (uLength, s1) =>
    if uLength > MaxPacketLength then .err .frameTooLong
    else if uLength < 0 then .panicked
    else
      let n := uLength.toNat
      if s1.length < n then .err .unexpectedEOF
      else
        match readUvarint (s1.take n) with
        | .error e => .err e
        | .ok (pid, bodyRest) => .ok (toInt32 pid) bodyRest

/-- `OutboundPacket.WriteString` from `packet/outbound.go` acting on the
accumulated body `p`: a string longer than `MaxStringLength` bytes is
rejected before anything is appended; otherwise the varint byte length and
the raw bytes are appended (the length is at most 32767, so `WriteVarInt`'s
five-byte buffer always suffices).  The second component is the returned
error message, `none` on success. -/
def writeString (p : List Nat) (s : List Nat) : List Nat × Option String :=
  if (s.length : Int) > MaxStringLength then (p, some "string is longer than 32767")
  else (p ++ putUvarint s.length ++ s, none)

/-- `InboundPacket.ReadString` from `packet/inbound.go`: read a varint length
with `ReadVarInt`, reject lengths above `MaxStringLength` before reading any
string byte, then read that many bytes (`readBytes` rejects a negative
length; a short buffer is a read failure).  Returns the string bytes and the
unconsumed remainder. -/
def readString (s : List Nat) : Except RErr (List Nat × List Nat) :=
  match readVarIntPkt s with
  | .error e => .error e
  | .ok (uLength, s1) =>
    if uLength > MaxStringLength then .error .stringTooLong
    else if uLength < 0 then .error .negativeLength
    else if s1.length < uLength.toNat then .error .eof
    else .ok (s1.take uLength.toNat, s1.drop uLength.toNat)

/-- Big-endian recombination of a byte list (`binary.BigEndian.Uint64`). -/
def beNat (l : List Nat) : Nat :=
  l.foldl (fun a b => a * 256 + b % 256) 0

/-- `InboundPacket.ReadLong` from `packet/inbound.go`: read exactly 8 bytes
(or fail) and interpret them as a big-endian two's-complement `int64`. -/
def readLong : List Nat → Except RErr (Int × List Nat)
  | b0 :: b1 :: b2 :: b3 :: b4 :: b5 :: b6 :: b7 :: rest =>
    .ok (toInt64 (beNat [b0, b1, b2, b3, b4, b5, b6, b7]), rest)
  | _ => .error .unexpectedEOF

/-- Byte output of `OutboundPacket.WriteLong` from `packet/outbound.go`:
`binary.BigEndian.PutUint64(buf, uint64(n))`. -/
def writeLongBytes (n : Int) : List Nat :=
  let u := (n % (2 ^ 64)).toNat
  [u / 2 ^ 56 % 256, u / 2 ^ 48 % 256, u / 2 ^ 40 % 256, u / 2 ^ 32 % 256,
   u / 2 ^ 24 % 256, u / 2 ^ 16 % 256, u / 2 ^ 8 % 256, u % 256]

/-- Byte output of `OutboundPacket.WriteShort` for the client's
`int16(port)` argument: the low 16 bits, big endian. -/
def writeShortBytes (port : Nat) : List Nat :=
  [port % 65536 / 256, port % 256]

/-- `ConnState` from `client.go`: the Go constants `Idle = 0`,
`Connected = 1`, `HandshakeComplete = 2`. -/
inductive ConnState where
  | Idle
  | Connected
  | HandshakeComplete
deriving DecidableEq, Repr

/-- Numeric value of a `ConnState` (the Go `int64` constant); the Go code
compares states with `<` and `>` on these values. -/
def stateVal : ConnState → Nat
  | .Idle => 0
  | .Connected => 1
  | .HandshakeComplete => 2

/-- The `Client` struct of `client.go`, restricted to the fields the embedded
operations read: the resolved address (`addr.Host()` as bytes and
`addr.Port()`), the protocol version and the connection state.  `timeout`,
`srv` and the live socket are I/O concerns outside the embedding (SRV
resolution is an external collaborator per the spec). -/
structure Client where
  host : List Nat
  port : Nat
  protocol : Int
  state : ConnState
deriving DecidableEq, Repr

/-- Observable network actions of the client, in order: establishing the TCP
connection and writing one built frame. -/
inductive Ev where
  | dial
  | send (frame : List Nat)
deriving DecidableEq, Repr

/-- Errors returned by the client operations of `client.go`. -/
inductive CErr where
  /-- "client is already connected" from `connect`. -/
  | alreadyConnected
  /-- "failed to connect" from `connect`. -/
  | dialFailed
  /-- "string is longer than 32767" surfaced by `sendHandshake` for the host. -/
  | stringTooLong
  /-- "packet exceeds max packet length" from `Build`. -/
  | packetTooLarge
  /-- a codec error from an inbound read. -/
  | codec (e : RErr)
  /-- "disconnect packet from server" with the server's message. -/
  | disconnected (msg : List Nat)
  /-- "response packet contains bad packet id" with the offending id. -/
  | badPacketId (id : Int)
  /-- "server responded with wrong pong id" from `Ping`. -/
  | wrongPongId
deriving DecidableEq, Repr

/-- Outcome of a client operation: a value, a returned error, or a Go
runtime panic bubbling up from the codec. -/
inductive Res (α : Type) where
  | ok (a : α)
  | err (e : CErr)
  | panicked
deriving DecidableEq, Repr

/-- `connect` from `client.go`: guard `c.state > Idle` with
"client is already connected", then dial (outcome supplied by the `dialOk`
oracle) and set the state to `Connected`.  The optional SRV lookup only
touches the address, an external collaborator, and is not modelled.  Returns
the emitted events alongside the outcome. -/
def connect (c : Client) (dialOk : Bool) : List Ev × Res Client :=
  if stateVal c.state > 0 then ([], .err .alreadyConnected)
  else if dialOk then ([.dial], .ok { c with state := .Connected })
  else ([], .err .dialFailed)

/-- Body bytes of the handshake packet assembled by `sendHandshake` in
`client.go`: `WriteVarInt(protocol)`, `WriteString(host)`,
`WriteShort(int16(port))`, `WriteVarInt(state)`.  A host longer than the
string bound aborts with the `WriteString` error; `WriteVarInt` of a
negative value panics (five-byte buffer overrun). -/
def buildHandshakeBody (c : Client) (st : Int) : Res (List Nat) :=
  match encodeVarInt c.protocol with
  | none => .panicked
  | some pv =>
    if (c.host.length : Int) > MaxStringLength then .err .stringTooLong
    else
      match encodeVarInt st with
      | none => .panicked
      | some sv => .ok (pv ++ putUvarint c.host.length ++ c.host ++ writeShortBytes c.port ++ sv)

/-- `sendHandshake` from `client.go`: build and write the handshake packet
(id `packet.HandshakeID = 0`), then set the state to `HandshakeComplete`. -/
def sendHandshake (c : Client) (st : Int) : List Ev × Res Client :=
  match buildHandshakeBody c st with
  | .panicked => ([], .panicked)
  | .err e => ([], .err e)
  | .ok body =>
    match build 0 body with
    | .panicked => ([], .panicked)
    | .tooLarge => ([], .err .packetTooLarge)
    | .built f => ([.send f], .ok { c with state := .HandshakeComplete })

/-- `connectAndHandshake` from `client.go`: connect when the state is below
`Connected`, then handshake when the state is below `HandshakeComplete`. -/
def connectAndHandshake (c : Client) (st : Int) (dialOk : Bool) : List Ev × Res Client :=
  match (if stateVal c.state < 1 then connect c dialOk else ([], .ok c)) with
  | (evs, .err e) => (evs, .err e)
  | (evs, .panicked) => (evs, .panicked)
  | (evs, .ok c1) =>
    if stateVal c1.state < 2 then
      match sendHandshake c1 st with
      | (evs2, r) => (evs ++ evs2, r)
    else (evs, .ok c1)

/-- `sendStatusRequest` from `client.go`: build and write an empty packet
with id `packet.StatusID = 0`. -/
def sendStatusRequest : List Ev × Res Unit :=
  match build 0 [] with
  | .built f => ([.send f], .ok ())
  | .tooLarge => ([], .err .packetTooLarge)
  | .panicked => ([], .panicked)

/-- `recvStatusResponse` from `client.go` on the inbound byte stream: read
one frame; a `DisconnectID = 27` or `LegacyDisconnectID = 26` frame surfaces
its string body as a disconnect error; any id other than `StatusID = 0` is a
bad packet id; otherwise the string body is the raw status response. -/
def recvStatusResponse (inbound : List Nat) : Res (List Nat) :=
  match newInboundPacket inbound with
  | .panicked => .panicked
  | .err e => .err (.codec e)
  | .ok id rest =>
    if id = 27 ∨ id = 26 then
      match readString rest with
      | .error e => .err (.codec e)
      | .ok (m, _) => .err (.disconnected m)
    else if id ≠ 0 then .err (.badPacketId id)
    else
      match readString rest with
      | .error e => .err (.codec e)
      | .ok (m, _) => .ok m

/-- `Status` from `client.go`: `connectAndHandshake(StatusState = 1)`, then
`sendStatusRequest`, then `recvStatusResponse`.  The final JSON decoding
(`slp.NewResponse`) is an external collaborator per the spec, so the raw
response bytes are returned together with the client.  The event trace is
returned in every outcome. -/
def status (c : Client) (dialOk : Bool) (inbound : List Nat) :
    List Ev × Res (List Nat × Client) :=
  match connectAndHandshake c 1 dialOk with
  | (evs, .err e) => (evs, .err e)
  | (evs, .panicked) => (evs, .panicked)
  | (evs, .ok c1) =>
    match sendStatusRequest with
    | (evs2, .err e) => (evs ++ evs2, .err e)
    | (evs2, .panicked) => (evs ++ evs2, .panicked)
    | (evs2, .ok _) =>
      match recvStatusResponse inbound with
      | .err e => (evs ++ evs2, .err e)
      | .panicked => (evs ++ evs2, .panicked)
      | .ok raw => (evs ++ evs2, .ok (raw, c1))

/-- `recvPong` from `client.go`: read one frame, require id
`packet.PongID = 1`, then read the 8-byte payload with `ReadLong`. -/
def recvPong (inbound : List Nat) : Res Int :=
  match newInboundPacket inbound with
  | .panicked => .panicked
  | .err e => .err (.codec e)
  | .ok id rest =>
    if id ≠ 1 then .err (.badPacketId id)
    else
      match readLong rest with
      | .error e => .err (.codec e)
      | .ok (v, _) => .ok v

/-- Outcome of `Ping` from `client.go`: the returned latency, the returned
error (if any) and the client afterwards — Go returns `(int, error)` and
mutates the receiver — or a runtime panic. -/
inductive PingRes where
  | ret (latency : Int) (e : Option CErr) (c : Client)
  | panicked
deriving DecidableEq, Repr

/-- `Ping` from `client.go`: `connectAndHandshake(StatusState = 1)`, send a
ping frame (id `packet.PingID = 1`) carrying the Unix timestamp `ts` as an
8-byte integer, receive the pong and compare its payload with `ts`.  The
wall-clock delta measured around the roundtrip is supplied as the `elapsed`
oracle.  A mismatching pong id returns the measured latency together with
the "server responded with wrong pong id" error; a matching pong resets the
state to `Idle` (the server closes the connection after the pong). -/
def ping (c : Client) (dialOk : Bool) (ts elapsed : Int) (inbound : List Nat) :
    List Ev × PingRes :=
  match connectAndHandshake c 1 dialOk with
  | (evs, .err e) => (evs, .ret 0 (some e) c)
  | (evs, .panicked) => (evs, .panicked)
  | (evs, .ok c1) =>
    match build 1 (writeLongBytes ts) with
    | .panicked => (evs, .panicked)
    | .tooLarge => (evs, .ret 0 (some .packetTooLarge) c1)
    | .built f =>
      match recvPong inbound with
      | .panicked => (evs ++ [.send f], .panicked)
      | .err e => (evs ++ [.send f], .ret 0 (some e) c1)
      | .ok pid =>
        if pid ≠ ts then (evs ++ [.send f], .ret elapsed (some .wrongPongId) c1)
        else (evs ++ [.send f], .ret elapsed none { c1 with state := .Idle })

/-!
Fingerprint heuristic engine.  The Go code matches Go regular expressions
(`regexp`, RE2 syntax) against ASCII disconnect messages.  The regex
dialect actually used needs only literals, `\d`, `.`, alternation,
concatenation, bounded and unbounded repetition, so it is embedded as a
small regular-expression type with Brzozowski-derivative matching.
-/

/-- Regular expressions over characters: empty language, empty word, a
literal character, the class `\d`, the class `.` (any character except
newline), concatenation, alternation and Kleene star. -/
inductive RE where
  | emp
  | eps
  | ch (c : Char)
  | dig
  | dot
  | cat (r s : RE)
  | alt (r s : RE)
  | star (r : RE)

/-- Does the regular expression accept the empty word? -/
def nullable : RE → Bool
  | .emp => false
  | .eps => true
  | .ch _ => false
  | .dig => false
  | .dot => false
  | .cat r s => nullable r && nullable s
  | .alt r s => nullable r || nullable s
  | .star _ => true

/-- Size-reducing concatenation constructor. -/
def mkCat : RE → RE → RE
  | .emp, _ => .emp
  | _, .emp => .emp
  | .eps, s => s
  | r, .eps => r
  | r, s => .cat r s

/-- Size-reducing alternation constructor. -/
def mkAlt : RE → RE → RE
  | .emp, s => s
  | r, .emp => r
  | r, s => .alt r s

/-- Brzozowski derivative of a regular expression by a character. -/
def deriv (r : RE) (c : Char) : RE :=
  match r with
  | .emp => .emp
  | .eps => .emp
  | .ch a => if a = c then .eps else .emp
  | .dig => if c.isDigit then .eps else .emp
  | .dot => if c = '\n' then .emp else .eps
  | .cat r s => if nullable r then mkAlt (mkCat (deriv r c) s) (deriv s c) else mkCat (deriv r c) s
  | .alt r s => mkAlt (deriv r c) (deriv s c)
  | .star r => mkCat (deriv r c) (.star r)

/-- Whole-word match: this is what Go `Regexp.MatchString` computes for a
pattern anchored with both `^` and `$`. -/
def reMatch (r : RE) (s : List Char) : Bool :=
  nullable (s.foldl deriv r)

/-- Regular expression for a literal string. -/
def reStr (s : String) : RE :=
  s.data.foldr (fun c r => RE.cat (.ch c) r) .eps

/-- `r+`. -/
def rePlus (r : RE) : RE := .cat r (.star r)

/-- Concatenation of a list of regular expressions. -/
def reCat (l : List RE) : RE := l.foldr RE.cat .eps

/-- `.{2,3}` — also the match extent of the non-greedy `.{2,3}?` of the Go
patterns, which is anchored on both sides where it occurs. -/
def dd23 : RE := .cat .dot (.cat .dot (.alt .eps .dot))

/-- Index of the leftmost suffix of `s` matching `r`, if any. -/
def findSufIdx (r : RE) : List Char → Option Nat
  | [] => if nullable r then some 0 else none
  | c :: t => if reMatch r (c :: t) then some 0 else (findSufIdx r t).map (· + 1)

/-- `Regexp.ReplaceAllString(s, "")` for a pattern anchored at the end with
`$` (and unable to match the empty word): remove the leftmost match, which
necessarily extends to the end of the string. -/
def stripEndMatch (r : RE) (s : List Char) : List Char :=
  match findSufIdx r s with
  | some i => s.take i
  | none => s

/-- Scan helper for `stripStartMatch`: the length of the longest prefix of
`s` matched by `r`, if any prefix (the empty one included) matches. -/
def longestPre (r : RE) : List Char → Nat → Option Nat → Option Nat
  | [], k, best => if nullable r then some k else best
  | c :: t, k, best =>
    longestPre (deriv r c) t (k + 1) (if nullable r then some k else best)

/-- `Regexp.ReplaceAllString(s, "")` for a pattern anchored at the start
with `^`: remove the match starting at position 0, if any.  Go picks the
leftmost-first (greedy) extent; on every string this development evaluates
it on, the greedy extent is the longest matching prefix, which is what is
removed here. -/
def stripStartMatch (r : RE) (s : List Char) : List Char :=
  match longestPre r s 0 none with
  | some k => s.drop k
  | none => s

/-- Go `strings.TrimPrefix`, on character lists. -/
def trimPre (s pre : List Char) : List Char :=
  if pre.isPrefixOf s then s.drop pre.length else s

/-- `DisconnectMsg` from the fingerprint package: the JSON fields
`translate`, `with` and `text` (a missing field decodes to the Go zero
value: the empty string / the empty list). -/
structure DisconnectMsg where
  translate : String
  With : List String
  text : String

/-- Errors produced by the fingerprint cascade; each constructor stands for
one of the `errors.New`/`fmt.Errorf` values of the Go code. -/
inductive FErr where
  /-- `ConnectionThrottled`. -/
  | connThrottled
  /-- "empty error topic". -/
  | emptyTopic
  /-- "server responded with unfamiliar error topic" with the topic. -/
  | unfamiliarTopic (t : String)
  /-- "incomplete disconnect message". -/
  | incomplete
  /-- "version mismatch" carrying the version string. -/
  | versionMismatch (v : String)
deriving DecidableEq, Repr

/-- The Netty prefix stripped from the first substitution argument. -/
def nettyPre : String :=
  "Internal Exception: io.netty.handler.codec.DecoderException: java.io.IOException: Packet "

/-- The trailing boilerplate pattern of `fingerprint/fingerprint.go`:
`" was larger than I expected, found \d+ bytes extra whilst reading packet \d+$"`
(without its `$` anchor, which `stripEndMatch` supplies). -/
def sufRe1 : RE :=
  reCat [reStr " was larger than I expected, found ", rePlus .dig,
         reStr " bytes extra whilst reading packet ", rePlus .dig]

/-- `"^login/0 \(.{2,3}?\)$"` from `fingerprint/fingerprint.go` (anchors
supplied by whole-word matching). -/
def vanillaRe1 : RE :=
  reCat [reStr "login/0 (", dd23, .ch ')']

/-- `"^\d+/\d+ \(class_\d*\)$"` from `fingerprint/fingerprint.go`. -/
def fabricRe1 : RE :=
  reCat [rePlus .dig, .ch '/', rePlus .dig, .ch ' ', .ch '(',
         reStr "class_", .star .dig, .ch ')']

/-- `DisconnectMsg.Fingerprint` from `fingerprint/fingerprint.go`
(lines 133–192): the deterministic classification cascade, first match
wins.  Returns the label and the returned error, if any. -/
def fingerprintMsgV1 (m : DisconnectMsg) : String × Option FErr :=
  if m.text = "This server is only compatible with Minecraft 1.13 and above." then
    ("velocity", none)
  else if m.text = "Connection throttled! Please wait before reconnecting." then
    ("unknown", some .connThrottled)
  else if m.translate = "" then ("unknown", some .emptyTopic)
  else if m.translate ≠ "disconnect.genericReason" ∧ m.translate ≠ "%s" then
    ("unknown", some (.unfamiliarTopic m.translate))
  else
    match m.With with
    | [] => ("unknown", some .incomplete)
    | w0 :: _ =>
      let msg := stripEndMatch sufRe1 (trimPre w0.data nettyPre.data)
      if msg = "login/0 (PacketLoginInStart)".data then ("craftbukkit", none)
      else if msg = "login/0 (ServerboundHelloPacket)".data then ("forge", none)
      else if reMatch vanillaRe1 msg then ("vanilla", none)
      else if reMatch fabricRe1 msg then ("fabric", none)
      else ("unknown", none)

/-- `DisconnectMsg.VersionMismatch` from `fingerprint/fingerprint.go`
(lines 194–203): only the `multiplayer.disconnect.incompatible` template is
recognised in this revision. -/
def versionMismatchV1 (m : DisconnectMsg) : Bool × String :=
  if m.translate = "multiplayer.disconnect.incompatible" then
    match m.With with
    | [] => (true, "")
    | w0 :: _ => (true, w0)
  else (false, "")

/-- The trailing boilerplate pattern of the revised fingerprint copy
(`src/unnamed/part_002`): `" was larger than I expected, found
(?:\d+|(?:login/)?serverbound/minecraft:hello) bytes extra whilst reading
packet (?:\d+|serverbound/minecraft:hello)$"`. -/
def sufRe2 : RE :=
  reCat [reStr " was larger than I expected, found ",
         .alt (rePlus .dig)
              (.cat (.alt .eps (reStr "login/")) (reStr "serverbound/minecraft:hello")),
         reStr " bytes extra whilst reading packet ",
         .alt (rePlus .dig) (reStr "serverbound/minecraft:hello")]

/-- The leading state/channel token pattern of the revised copy:
`"^(login|\d+)/(serverbound/minecraft:hello|\d+) "`. -/
def preRe2 : RE :=
  reCat [.alt (reStr "login") (rePlus .dig), .ch '/',
         .alt (reStr "serverbound/minecraft:hello") (rePlus .dig), .ch ' ']

/-- `"^\(.{2,3}?\)$"` from the revised copy. -/
def vanillaRe2 : RE := reCat [.ch '(', dd23, .ch ')']

/-- `"^\(class_\d*\)$"` from the revised copy. -/
def fabricRe2 : RE := reCat [.ch '(', reStr "class_", .star .dig, .ch ')']

/-- `DisconnectMsg.Fingerprint` from the revised fingerprint copy
(`src/unnamed/part_002`, lines 159–219). -/
def fingerprintMsgV2 (m : DisconnectMsg) : String × Option FErr :=
  if m.text = "This server is only compatible with Minecraft 1.13 and above." then
    ("velocity", none)
  else if m.text = "Connection throttled! Please wait before reconnecting." then
    ("unknown", some .connThrottled)
  else if m.translate = "" then ("unknown", some .emptyTopic)
  else if m.translate ≠ "disconnect.genericReason" ∧ m.translate ≠ "%s" then
    ("unknown", some (.unfamiliarTopic m.translate))
  else
    match m.With with
    | [] => ("unknown", some .incomplete)
    | w0 :: _ =>
      let msg := stripStartMatch preRe2 (stripEndMatch sufRe2 (trimPre w0.data nettyPre.data))
      if msg = "(PacketLoginInStart)".data then ("craftbukkit", none)
      else if msg = "(ServerboundHelloPacket)".data then ("paper", none)
      else if reMatch vanillaRe2 msg then ("vanilla", none)
      else if reMatch fabricRe2 msg then ("fabric", none)
      else ("unknown", none)

/-- `DisconnectMsg.VersionMismatch` from the revised fingerprint copy
(`src/unnamed/part_002`, lines 221–234): both the
`multiplayer.disconnect.incompatible` and the
`multiplayer.disconnect.outdated_client` templates report a mismatch, with
the first substitution argument as the offending version. -/
def versionMismatchV2 (m : DisconnectMsg) : Bool × String :=
  if m.translate = "multiplayer.disconnect.incompatible" ∨
     m.translate = "multiplayer.disconnect.outdated_client" then
    match m.With with
    | [] => (true, "")
    | w0 :: _ => (true, w0)
  else (false, "")

/-- The classification step of `FingerprintWithProtocol` after the
disconnect body has been parsed (revised copy, lines 88–93): a version
mismatch yields the label `unknown` with a "version mismatch" error carrying
the version; otherwise the cascade `DisconnectMsg.Fingerprint` decides. -/
def classifyDisconnectV2 (m : DisconnectMsg) : String × Option FErr :=
  match versionMismatchV2 m with
  | (true, v) => ("unknown", some (.versionMismatch v))
  | (false, _) => fingerprintMsgV2 m

/-! ## Shared lemmas about the varint codec -/

/-- The fuel of `putUvarintF` is irrelevant as long as it covers the 7-bit
group count of the value. -/
theorem putUvarintF_congr :
    ∀ (f g x : Nat), 0 < f → 0 < g → x < 2 ^ (7 * f) → x < 2 ^ (7 * g) →
      putUvarintF f x = putUvarintF g x := by
  intro f
  induction f with
  | zero => intro g x h0; omega
  | succ f ihf =>
    intro g x _ hg hxf hxg
    cases g with
    | zero => omega
    | succ g =>
      simp only [putUvarintF]
      by_cases h : x < 128
      · simp [h]
      · rw [if_neg h, if_neg h]
        have hf1 : 0 < f := by
          rcases Nat.eq_zero_or_pos f with h0 | h0
          · subst h0; norm_num at hxf; omega
          · exact h0
        have hg1 : 0 < g := by
          rcases Nat.eq_zero_or_pos g with h0 | h0
          · subst h0; norm_num at hxg; omega
          · exact h0
        have hdf : x / 128 < 2 ^ (7 * f) := by
          have he : 2 ^ (7 * (f + 1)) = 2 ^ (7 * f) * 128 := by
            have h7 : 7 * (f + 1) = 7 * f + 7 := by ring
            rw [h7, pow_add]; norm_num
          omega
        have hdg : x / 128 < 2 ^ (7 * g) := by
          have he : 2 ^ (7 * (g + 1)) = 2 ^ (7 * g) * 128 := by
            have h7 : 7 * (g + 1) = 7 * g + 7 := by ring
            rw [h7, pow_add]; norm_num
          omega
        rw [ihf g (x / 128) hf1 hg1 hdf hdg]

/-- Unfolding equation of `putUvarint` on its 64-bit domain. -/
theorem putUvarint_step (x : Nat) (h : x < 2 ^ 64) :
    putUvarint x = if x < 128 then [x] else (x % 128 + 128) :: putUvarint (x / 128) := by
  show putUvarintF 10 x = _
  rw [putUvarintF]
  by_cases hx : x < 128
  · simp [hx]
  · rw [if_neg hx, if_neg hx]
    have h9 : x / 128 < 2 ^ (7 * 9) := by norm_num; omega
    have h10 : x / 128 < 2 ^ (7 * 10) := by norm_num; omega
    rw [putUvarintF_congr 9 10 (x / 128) (by omega) (by omega) h9 h10]
    rfl

/-- Bitwise or of values with disjoint bit ranges is addition. -/
theorem lorOfLt : ∀ (k a b : Nat), a < 2 ^ k → a ||| b * 2 ^ k = a + b * 2 ^ k := by
  intro k
  induction k with
  | zero =>
    intro a b ha
    have h0 : a = 0 := by omega
    subst h0
    simp [Nat.zero_or]
  | succ k ih =>
    intro a b ha
    have hdec : Nat.bit (a.testBit 0) (a >>> 1) = a := Nat.bit_testBit_zero_shiftRight_one a
    have hb2 : Nat.bit false (b * 2 ^ k) = b * 2 ^ (k + 1) := by
      have h4 : b * 2 ^ (k + 1) = 2 * (b * 2 ^ k) := by rw [pow_succ]; ring
      rw [Nat.bit_val, h4]
      simp
    have hhalf : a >>> 1 < 2 ^ k := by
      rw [Nat.shiftRight_one]
      have hp : 2 ^ (k + 1) = 2 ^ k * 2 := pow_succ 2 k
      omega
    calc a ||| b * 2 ^ (k + 1)
        = Nat.bit (a.testBit 0) (a >>> 1) ||| Nat.bit false (b * 2 ^ k) := by
          rw [hdec, hb2]
      _ = Nat.bit (a.testBit 0 || false) ((a >>> 1) ||| b * 2 ^ k) := Nat.lor_bit _ _ _ _
      _ = Nat.bit (a.testBit 0) ((a >>> 1) + b * 2 ^ k) := by rw [Bool.or_false, ih _ b hhalf]
      _ = a + b * 2 ^ (k + 1) := by
          have h1 : Nat.bit (a.testBit 0) (a >>> 1 + b * 2 ^ k)
              = 2 * (a >>> 1 + b * 2 ^ k) + (a.testBit 0).toNat := Nat.bit_val _ _
          have h2 : Nat.bit (a.testBit 0) (a >>> 1) = 2 * (a >>> 1) + (a.testBit 0).toNat :=
            Nat.bit_val _ _
          have h4 : b * 2 ^ (k + 1) = 2 * (b * 2 ^ k) := by rw [pow_succ]; ring
          rw [h1, h4]
          rw [h2] at hdec
          omega

/-- Splitting off the low 7-bit group of a shifted value. -/
theorem chunkSplit (x sh : Nat) :
    x * 2 ^ sh = x / 128 * 2 ^ (sh + 7) + x % 128 * 2 ^ sh := by
  have h := Nat.div_add_mod x 128
  calc x * 2 ^ sh = (2 ^ 7 * (x / 128) + x % 128) * 2 ^ sh := by rw [show (2:Nat)^7 = 128 by norm_num, h]
    _ = x / 128 * 2 ^ (sh + 7) + x % 128 * 2 ^ sh := by rw [pow_add]; ring

/-- Length bound for `putUvarint`: `k` groups of 7 bits fit in `k` bytes. -/
theorem putUvarint_len_le :
    ∀ (x k : Nat), 0 < k → x < 2 ^ (7 * k) → x < 2 ^ 64 → (putUvarint x).length ≤ k := by
  intro x
  induction x using Nat.strong_induction_on with
  | _ x ih =>
    intro k hk hxk hx64
    rw [putUvarint_step x hx64]
    by_cases h : x < 128
    · simp [h]; omega
    · simp only [h, if_false, List.length_cons]
      have hk2 : 2 ≤ k := by
        by_contra hlt
        push_neg at hlt
        have hk1 : k = 1 := by omega
        subst hk1
        norm_num at hxk
        omega
      have hdx : x / 128 < 2 ^ (7 * (k - 1)) := by
        have hsplit : 2 ^ (7 * k) = 2 ^ (7 * (k - 1)) * 128 := by
          have : 7 * k = 7 * (k - 1) + 7 := by omega
          rw [this, pow_add]; norm_num
        omega
      have := ih (x / 128) (by omega) (k - 1) (by omega) hdx (by omega)
      omega

/-- `putUvarint` of a value below `2^31` fits `WriteVarInt`'s buffer, so
`encodeVarInt` succeeds on a non-negative `int32`. -/
theorem encodeVarInt_nonneg (n : Int) (h0 : 0 ≤ n) (h31 : n < 2 ^ 31) :
    encodeVarInt n = some (putUvarint n.toNat) := by
  unfold encodeVarInt
  have hmod : n % 2 ^ 64 = n := Int.emod_eq_of_lt h0 (by omega)
  rw [hmod]
  have h35 : n.toNat < 2 ^ (7 * 5) := by norm_num; omega
  have h64 : n.toNat < 2 ^ 64 := by norm_num; omega
  have hlen : (putUvarint n.toNat).length ≤ 5 := putUvarint_len_le n.toNat 5 (by omega) h35 h64
  simp [hlen]

/-- `toInt32` of a value already below `2^31` is the value itself. -/
theorem toInt32_small (x : Nat) (h : x < 2 ^ 31) : toInt32 x = (x : Int) := by
  unfold toInt32
  have hm : x % 2 ^ 32 = x := Nat.mod_eq_of_lt (by omega)
  rw [hm, if_pos h]

/-- The connection-level varint loop of `packet/inbound.go` decodes a
`PutUvarint` encoding exactly, for accumulator `u` below the current shift
and a total value within the non-negative `int32` range. -/
theorem readVarIntLoop_enc :
    ∀ (x : Nat) (rest : List Nat) (u sh : Nat),
      u < 2 ^ sh → x * 2 ^ sh + u < 2 ^ 31 →
      readVarIntLoop (putUvarint x ++ rest) u sh = .ok (((x * 2 ^ sh + u : Nat) : Int), rest) := by
  intro x
  induction x using Nat.strong_induction_on with
  | _ x ih =>
    intro rest u sh hu hb
    have hx1 : x ≤ x * 2 ^ sh := Nat.le_mul_of_pos_right x (by positivity)
    have hx64 : x < 2 ^ 64 := by omega
    rw [putUvarint_step x hx64]
    by_cases h : x < 128
    · rw [if_pos h]
      show readVarIntLoop (x :: rest) u sh = _
      rw [readVarIntLoop]
      have hd : x / 128 = 0 := Nat.div_eq_of_lt h
      rw [if_pos (by omega : x / 128 % 2 = 0)]
      have hxm : x % 128 = x := Nat.mod_eq_of_lt h
      have hsl : (x % 128) <<< sh = x * 2 ^ sh := by rw [hxm, Nat.shiftLeft_eq]
      have hlt32 : x * 2 ^ sh < 2 ^ 32 := by omega
      rw [hsl, Nat.mod_eq_of_lt hlt32, lorOfLt sh u x hu,
        toInt32_small (u + x * 2 ^ sh) (by omega)]
      congr 2
      omega
    · rw [if_neg h]
      rw [List.cons_append, readVarIntLoop]
      have hb128 : (x % 128 + 128) / 128 % 2 = 1 := by omega
      rw [if_neg (by omega : ¬((x % 128 + 128) / 128 % 2 = 0))]
      have hsplit : x * 2 ^ sh = x / 128 * 2 ^ (sh + 7) + x % 128 * 2 ^ sh := chunkSplit x sh
      have hge : 2 ^ (sh + 7) ≤ x * 2 ^ sh := by
        rw [pow_add]
        have : 2 ^ 7 * 2 ^ sh ≤ x * 2 ^ sh := Nat.mul_le_mul_right _ (by omega)
        omega
      have hpow : (2:Nat) ^ (sh + 7) < 2 ^ 31 := by omega
      have hsh : sh + 7 < 31 := by
        by_contra hc
        push_neg at hc
        have : (2:Nat) ^ 31 ≤ 2 ^ (sh + 7) := Nat.pow_le_pow_right (by omega) hc
        omega
      rw [if_neg (by omega : ¬(sh + 7 ≥ 32))]
      have hxm : (x % 128 + 128) % 128 = x % 128 := by omega
      have hchunk : x % 128 * 2 ^ sh < 2 ^ 32 := by
        have : x % 128 ≤ x := Nat.mod_le x 128
        have : x % 128 * 2 ^ sh ≤ x * 2 ^ sh := Nat.mul_le_mul_right _ this
        omega
      have hnum : u ||| ((x % 128 + 128) % 128) <<< sh % 2 ^ 32 = u + x % 128 * 2 ^ sh := by
        rw [hxm, Nat.shiftLeft_eq, Nat.mod_eq_of_lt hchunk, lorOfLt sh u (x % 128) hu]
      rw [hnum]
      have hu7 : u + x % 128 * 2 ^ sh < 2 ^ (sh + 7) := by
        have h1 : x % 128 * 2 ^ sh ≤ 127 * 2 ^ sh :=
          Nat.mul_le_mul_right _ (by omega)
        have h2 : (2:Nat) ^ (sh + 7) = 128 * 2 ^ sh := by rw [pow_add]; ring
        omega
      have hbnd : x / 128 * 2 ^ (sh + 7) + (u + x % 128 * 2 ^ sh) < 2 ^ 31 := by omega
      rw [ih (x / 128) (Nat.div_lt_self (by omega) (by omega)) rest
        (u + x % 128 * 2 ^ sh) (sh + 7) hu7 hbnd]
      congr 2
      omega

/-- `readVarInt` of `packet/inbound.go` decodes a `PutUvarint` encoding of a
value in the non-negative `int32` range, leaving the rest untouched. -/
theorem readVarInt_enc (x : Nat) (rest : List Nat) (h : x < 2 ^ 31) :
    readVarInt (putUvarint x ++ rest) = .ok ((x : Int), rest) := by
  have := readVarIntLoop_enc x rest 0 0 (by norm_num) (by simpa using h)
  simpa using this

/-- `binary.ReadUvarint` decodes a `PutUvarint` encoding for accumulator `u`
below the current shift `7*i` and a total value within `uint64`. -/
theorem readUvarintAux_enc :
    ∀ (x : Nat) (rest : List Nat) (u i : Nat),
      u < 2 ^ (7 * i) → x * 2 ^ (7 * i) + u < 2 ^ 64 → i ≤ 9 →
      readUvarintAux (putUvarint x ++ rest) u (7 * i) i = .ok (x * 2 ^ (7 * i) + u, rest) := by
  intro x
  induction x using Nat.strong_induction_on with
  | _ x ih =>
    intro rest u i hu hb hi
    have hx1 : x ≤ x * 2 ^ (7 * i) := Nat.le_mul_of_pos_right x (by positivity)
    have hx64 : x < 2 ^ 64 := by omega
    rw [putUvarint_step x hx64]
    by_cases h : x < 128
    · rw [if_pos h]
      show readUvarintAux (x :: rest) u (7 * i) i = _
      have hnine : ¬(i = 9 ∧ x > 1) := by
        rintro ⟨h9, hx2⟩
        subst h9
        have : (2:Nat) * 2 ^ (7 * 9) ≤ x * 2 ^ (7 * 9) :=
          Nat.mul_le_mul_right _ (by omega)
        norm_num at this hb
        omega
      have hstep : readUvarintAux (x :: rest) u (7 * i) i
          = .ok (u ||| (x <<< (7 * i)) % 2 ^ 64, rest) := by
        have hi10 : i < 10 := by omega
        rcases i with _ | _ | _ | _ | _ | _ | _ | _ | _ | _ | i
        all_goals try (rw [readUvarintAux, if_pos h, if_neg hnine])
        all_goals (intros; omega)
      rw [hstep]
      have hlt64 : x * 2 ^ (7 * i) < 2 ^ 64 := by omega
      rw [Nat.shiftLeft_eq, Nat.mod_eq_of_lt hlt64, lorOfLt (7 * i) u x hu]
      have hcomm : u + x * 2 ^ (7 * i) = x * 2 ^ (7 * i) + u := by omega
      rw [hcomm]
    · rw [if_neg h]
      rw [List.cons_append]
      have hsplit : x * 2 ^ (7 * i) = x / 128 * 2 ^ (7 * (i + 1)) + x % 128 * 2 ^ (7 * i) := by
        have h7 : 7 * (i + 1) = 7 * i + 7 := by ring
        rw [h7]
        exact chunkSplit x (7 * i)
      have hge : 2 ^ (7 * i + 7) ≤ x * 2 ^ (7 * i) := by
        rw [pow_add]
        have : 2 ^ (7 * i) * 2 ^ 7 ≤ x * 2 ^ (7 * i) := by
          have := Nat.mul_le_mul_right (2 ^ (7 * i)) (by omega : (2:Nat) ^ 7 ≤ x)
          calc 2 ^ (7 * i) * 2 ^ 7 = 2 ^ 7 * 2 ^ (7 * i) := by ring
            _ ≤ x * 2 ^ (7 * i) := this
        omega
      have hi8 : i ≤ 8 := by
        by_contra hc
        push_neg at hc
        have h9 : i = 9 := by omega
        subst h9
        have : (2:Nat) ^ (7 * 9 + 7) ≤ x * 2 ^ (7 * 9) := hge
        norm_num at this hb
        omega
      have hstep : readUvarintAux ((x % 128 + 128) :: (putUvarint (x / 128) ++ rest)) u (7 * i) i
          = readUvarintAux (putUvarint (x / 128) ++ rest)
              (u ||| (((x % 128 + 128) % 128) <<< (7 * i)) % 2 ^ 64) (7 * i + 7) (i + 1) := by
        rcases i with _ | _ | _ | _ | _ | _ | _ | _ | _ | i
        all_goals try (rw [readUvarintAux, if_neg (by omega : ¬(x % 128 + 128 < 128))])
        all_goals (intros; omega)
      rw [hstep]
      have hxm : (x % 128 + 128) % 128 = x % 128 := by omega
      have hchunk : x % 128 * 2 ^ (7 * i) < 2 ^ 64 := by
        have h1 : x % 128 ≤ x := Nat.mod_le x 128
        have h2 : x % 128 * 2 ^ (7 * i) ≤ x * 2 ^ (7 * i) := Nat.mul_le_mul_right _ h1
        omega
      have hnum : u ||| (((x % 128 + 128) % 128) <<< (7 * i)) % 2 ^ 64
          = u + x % 128 * 2 ^ (7 * i) := by
        rw [hxm, Nat.shiftLeft_eq, Nat.mod_eq_of_lt hchunk, lorOfLt (7 * i) u (x % 128) hu]
      rw [hnum]
      have hu7 : u + x % 128 * 2 ^ (7 * i) < 2 ^ (7 * (i + 1)) := by
        have h1 : x % 128 * 2 ^ (7 * i) ≤ 127 * 2 ^ (7 * i) :=
          Nat.mul_le_mul_right _ (by omega)
        have h2 : (2:Nat) ^ (7 * (i + 1)) = 128 * 2 ^ (7 * i) := by
          have h7 : 7 * (i + 1) = 7 * i + 7 := by ring
          rw [h7, pow_add]; ring
        omega
      have hbnd : x / 128 * 2 ^ (7 * (i + 1)) + (u + x % 128 * 2 ^ (7 * i)) < 2 ^ 64 := by
        have h1 : x / 128 * 2 ^ (7 * (i + 1)) + x % 128 * 2 ^ (7 * i) = x * 2 ^ (7 * i) :=
          hsplit.symm
        omega
      have h7i : 7 * i + 7 = 7 * (i + 1) := by ring
      rw [h7i]
      rw [ih (x / 128) (Nat.div_lt_self (by omega) (by omega)) rest
        (u + x % 128 * 2 ^ (7 * i)) (i + 1) hu7 hbnd (by omega)]
      have h1 : x / 128 * 2 ^ (7 * (i + 1)) + x % 128 * 2 ^ (7 * i) = x * 2 ^ (7 * i) :=
        hsplit.symm
      have hcomm : x / 128 * 2 ^ (7 * (i + 1)) + (u + x % 128 * 2 ^ (7 * i))
          = x * 2 ^ (7 * i) + u := by omega
      rw [hcomm]

/-- `binary.ReadUvarint` inverts `PutUvarint` on the whole `uint64` range. -/
theorem readUvarint_enc (x : Nat) (rest : List Nat) (h : x < 2 ^ 64) :
    readUvarint (putUvarint x ++ rest) = .ok (x, rest) := by
  have := readUvarintAux_enc x rest 0 0 (by norm_num) (by simpa using h) (by omega)
  simpa using this

/-- `InboundPacket.ReadVarInt` inverts `WriteVarInt` for a value in the
non-negative `int32` range. -/
theorem readVarIntPkt_enc (x : Nat) (rest : List Nat) (h : x < 2 ^ 31) :
    readVarIntPkt (putUvarint x ++ rest) = .ok ((x : Int), rest) := by
  unfold readVarIntPkt
  rw [readUvarint_enc x rest (by omega)]
  simp [toInt32_small x h]

/-! ## Claim theorems -/

/-- C2 — the var-long half of the varint round-trip claim fails on the code:
`WriteVarLong(2^31)` encodes the ten-group uvarint of `2147483648`, but
`ReadVarLong` delegates to `ReadVarInt`, whose `int32(n)` conversion
truncates the decoded value to `-2147483648`, contradicting `ReadVarLong`'s
own documentation ("reads a variable-length 64-bit integer"). -/
theorem c2_readVarLong_truncates :
    readVarLongPkt (writeVarLongBytes 2147483648) = .ok (-2147483648, []) ∧
    (-2147483648 : Int) ≠ 2147483648 := by
  decide

/-- C10 — the inbound decoder is not panic-free: the five-byte frame-length
varint `FF FF FF FF 0F` decodes to the `int32` value `-1`, which passes the
`length > MaxPacketLength` check and reaches `make([]byte, -1)`, a Go
runtime panic. -/
theorem c10_negative_length_panics :
    readVarInt [255, 255, 255, 255, 15] = .ok (-1, []) ∧
    newInboundPacket [255, 255, 255, 255, 15] = .panicked := by
  decide

/-- C5 counterexample — the packet-level varint read (`ReadVarInt`, built on
Go `binary.ReadUvarint`) does not fail on an input whose first five bytes
all carry the continuation bit: on `80 80 80 80 80 01` it succeeds, reading
six bytes and returning `int32(1 << 35) = 0`. -/
theorem c5_counterexample :
    readVarIntPkt [128, 128, 128, 128, 128, 1] = .ok (0, []) := by
  decide

/-- C5 (amended) — the connection-level varint read (`readVarInt` in
`packet/inbound.go`, used for frame lengths) fails with the
varint-too-long error whenever the first five bytes all have the high
(continuation) bit set, without consuming further bytes; the packet-level
`ReadVarInt` instead bounds iteration at Go `ReadUvarint`'s ten bytes. -/
theorem c5_readVarInt_bounded (b0 b1 b2 b3 b4 : Nat) (rest : List Nat)
    (h0 : 128 ≤ b0) (h0h : b0 < 256) (h1 : 128 ≤ b1) (h1h : b1 < 256)
    (h2 : 128 ≤ b2) (h2h : b2 < 256) (h3 : 128 ≤ b3) (h3h : b3 < 256)
    (h4 : 128 ≤ b4) (h4h : b4 < 256) :
    readVarInt (b0 :: b1 :: b2 :: b3 :: b4 :: rest) = .error .varintTooLong := by
  have e0 : b0 / 128 % 2 = 1 := by omega
  have e1 : b1 / 128 % 2 = 1 := by omega
  have e2 : b2 / 128 % 2 = 1 := by omega
  have e3 : b3 / 128 % 2 = 1 := by omega
  have e4 : b4 / 128 % 2 = 1 := by omega
  simp [readVarInt, readVarIntLoop, e0, e1, e2, e3, e4]

/-- C5 witness. -/
theorem c5_witness :
    readVarInt [128, 128, 128, 128, 128] = .error .varintTooLong :=
  c5_readVarInt_bounded 128 128 128 128 128 [] (by norm_num) (by norm_num)
    (by norm_num) (by norm_num) (by norm_num) (by norm_num) (by norm_num)
    (by norm_num) (by norm_num) (by norm_num)

/-- C1 counterexample — the frame round-trip fails for a negative packet id:
`Build` with id `-1` (and the empty body, whose encoded payload of 10 bytes
is within the 2,097,151 bound) panics, because `encodeVarInt` sign-extends
the id to a ten-byte uvarint that overruns its five-byte buffer; no byte
sequence is produced, so no decoding can return the id. -/
theorem c1_counterexample : build (-1) [] = .panicked := by decide

/-- C1 (amended) — frame round-trip for non-negative packet ids: for every
id in `[0, 2^31)` and every body such that the encoded payload
(varint of the id followed by the body) is at most 2,097,151 bytes, `Build`
produces a frame which `NewInboundPacket` decodes back to the same id, with
exactly the body bytes left readable. -/
theorem c1_frame_roundtrip (id : Int) (body : List Nat) (h0 : 0 ≤ id) (h31 : id < 2 ^ 31)
    (hlen : (putUvarint id.toNat).length + body.length ≤ 2097151) :
    ∃ frame, build id body = .built frame ∧ newInboundPacket frame = .ok id body := by
  have henc := encodeVarInt_nonneg id h0 h31
  set idB := putUvarint id.toNat with hidB
  set pkt := idB ++ body with hpkt
  have hLeq : pkt.length = idB.length + body.length := List.length_append _ _
  have hLle : pkt.length ≤ 2097151 := by rw [hLeq]; exact hlen
  have hcast : (pkt.length : Int) ≤ 2097151 := by exact_mod_cast hLle
  have hcond : ¬((pkt.length : Int) > MaxPacketLength) := by
    unfold MaxPacketLength; omega
  have henc2 : encodeVarInt (pkt.length : Int) = some (putUvarint pkt.length) :=
    encodeVarInt_nonneg (pkt.length : Int) (by positivity) (by omega)
  refine ⟨putUvarint pkt.length ++ pkt, ?_, ?_⟩
  · unfold build
    rw [henc]
    simp only [← hpkt, hcond, if_false, henc2]
  · have hrv := readVarInt_enc pkt.length pkt (by omega)
    unfold newInboundPacket
    rw [hrv]
    have hc2 : ¬((pkt.length : Int) < 0) := by omega
    have htoNat : ((pkt.length : Int)).toNat = pkt.length := rfl
    have htake : pkt.take pkt.length = pkt := List.take_length pkt
    have hid64 : id.toNat < 2 ^ 64 := by omega
    have hu := readUvarint_enc id.toNat body hid64
    have hival : toInt32 id.toNat = id := by
      rw [toInt32_small id.toNat (by omega), Int.toNat_of_nonneg h0]
    simp [hcond, hc2, htoNat, htake, ← hidB, hu, hival]

/-- C1 witness. -/
theorem c1_witness :
    ∃ frame, build 0 [1, 2, 3] = .built frame ∧ newInboundPacket frame = .ok 0 [1, 2, 3] :=
  c1_frame_roundtrip 0 [1, 2, 3] (by norm_num) (by norm_num) (by decide)

/-- C3 — inbound frame length bound: a declared frame length varint of
2,097,152 (`80 80 80 80 01` is its encoding's prefix `80 80 80 01`) makes
`NewInboundPacket` fail with the too-long error for every continuation of
the stream — before any body byte is needed — while a declared length of
exactly 2,097,151 is accepted and the full body is then read. -/
theorem c3_frame_length_boundary :
    (∀ s : List Nat, newInboundPacket (128 :: 128 :: 128 :: 1 :: s) = .err .frameTooLong) ∧
    newInboundPacket (255 :: 255 :: 127 :: 0 :: List.replicate 2097150 7)
      = .ok 0 (List.replicate 2097150 7) := by
  constructor
  · intro s
    have henc : putUvarint 2097152 = [128, 128, 128, 1] := by decide
    have hrv := readVarInt_enc 2097152 s (by norm_num)
    rw [henc] at hrv
    unfold newInboundPacket
    rw [show (128 :: 128 :: 128 :: 1 :: s) = [128, 128, 128, 1] ++ s from rfl, hrv]
    simp [MaxPacketLength]
  · have key : ∀ T : List Nat, T.length = 2097150 →
        newInboundPacket (255 :: 255 :: 127 :: 0 :: T) = .ok 0 T := by
      intro T hT
      have henc : putUvarint 2097151 = [255, 255, 127] := by decide
      have hrv := readVarInt_enc 2097151 (0 :: T) (by norm_num)
      rw [henc] at hrv
      unfold newInboundPacket
      rw [show (255 :: 255 :: 127 :: 0 :: T) = [255, 255, 127] ++ (0 :: T) from rfl, hrv]
      have hlen : (0 :: T).length = 2097151 := by simp [hT]
      have htake : (0 :: T).take 2097151 = 0 :: T := by rw [← hlen, List.take_length]
      have hid : readUvarint (0 :: T) = .ok (0, T) := by
        have h := readUvarint_enc 0 T (by norm_num)
        rw [show putUvarint 0 = [0] from by decide] at h
        simpa using h
      simp [MaxPacketLength, hlen, htake, hid, toInt32]
    exact key (List.replicate 2097150 7) (by rw [List.length_replicate])

/-- C3 witness. -/
theorem c3_witness : newInboundPacket [128, 128, 128, 1] = .err .frameTooLong :=
  c3_frame_length_boundary.1 []

/-- C4 — the 32,767-byte string bound on both paths: `WriteString` appends
the length varint and the bytes for a 32,767-byte string and rejects a
32,768-byte string without appending anything; `ReadString` succeeds for a
decoded length prefix of 32,767 and fails with the string-too-long error,
before reading any string byte, for every decoded prefix above 32,767 (as an
`int32`). -/
theorem c4_string_boundaries :
    (∀ p s : List Nat, s.length = 32767 →
      writeString p s = (p ++ putUvarint 32767 ++ s, none)) ∧
    (∀ p s : List Nat, s.length = 32768 →
      writeString p s = (p, some "string is longer than 32767")) ∧
    (∀ body rest : List Nat, body.length = 32767 →
      readString (putUvarint 32767 ++ (body ++ rest)) = .ok (body, rest)) ∧
    (∀ (L : Nat) (rest : List Nat), 32767 < L → L < 2 ^ 31 →
      readString (putUvarint L ++ rest) = .error .stringTooLong) := by
  refine ⟨?_, ?_, ?_, ?_⟩
  · intro p s hlen
    unfold writeString
    rw [hlen]
    simp [MaxStringLength]
  · intro p s hlen
    unfold writeString
    rw [hlen]
    simp [MaxStringLength]
  · intro body rest hb
    have hrv := readVarIntPkt_enc 32767 (body ++ rest) (by norm_num)
    unfold readString
    rw [hrv]
    have hlen : ¬((body ++ rest).length < 32767) := by
      rw [List.length_append, hb]; omega
    have htake : (body ++ rest).take 32767 = body := by rw [← hb, List.take_left]
    have hdrop : (body ++ rest).drop 32767 = rest := by rw [← hb, List.drop_left]
    simp [MaxStringLength, hlen, htake, hdrop]
    omega
  · intro L rest hgt h31
    have hrv := readVarIntPkt_enc L rest h31
    unfold readString
    rw [hrv]
    have hc : (MaxStringLength : Int) < (L : Int) := by
      unfold MaxStringLength
      exact_mod_cast hgt
    simp [hc]

/-- C4 witness. -/
theorem c4_witness :
    writeString [] (List.replicate 32767 0)
      = ([] ++ putUvarint 32767 ++ List.replicate 32767 0, none) ∧
    writeString [9] (List.replicate 32768 0)
      = ([9], some "string is longer than 32767") ∧
    readString (putUvarint 32767 ++ (List.replicate 32767 0 ++ [5]))
      = .ok (List.replicate 32767 0, [5]) ∧
    readString (putUvarint 32768 ++ []) = .error .stringTooLong :=
  ⟨c4_string_boundaries.1 [] _ (by rw [List.length_replicate]),
   c4_string_boundaries.2.1 [9] _ (by rw [List.length_replicate]),
   c4_string_boundaries.2.2.1 _ [5] (by rw [List.length_replicate]),
   c4_string_boundaries.2.2.2 32768 [] (by norm_num) (by norm_num)⟩

set_option maxHeartbeats 1000000 in
/-- Big-endian byte decomposition recomposes to the original 64-bit value. -/
theorem beNat_writeLong (u : Nat) (hu : u < 2 ^ 64) :
    beNat [u / 2 ^ 56 % 256, u / 2 ^ 48 % 256, u / 2 ^ 40 % 256, u / 2 ^ 32 % 256,
      u / 2 ^ 24 % 256, u / 2 ^ 16 % 256, u / 2 ^ 8 % 256, u % 256] = u := by
  simp only [beNat, List.foldl]
  norm_num
  omega

/-- `ReadLong` inverts `WriteLong` on the `int64` range. -/
theorem readLong_write (p : Int) (rest : List Nat) (h1 : -(2 ^ 63) ≤ p) (h2 : p < 2 ^ 63) :
    readLong (writeLongBytes p ++ rest) = .ok (p, rest) := by
  have hu64 : ((p % (2 ^ 64)).toNat) < 2 ^ 64 := by omega
  have key : ∀ u : Nat,
      readLong ((u / 2 ^ 56 % 256) :: (u / 2 ^ 48 % 256) :: (u / 2 ^ 40 % 256)
        :: (u / 2 ^ 32 % 256) :: (u / 2 ^ 24 % 256) :: (u / 2 ^ 16 % 256)
        :: (u / 2 ^ 8 % 256) :: (u % 256) :: rest)
      = .ok (toInt64 (beNat [u / 2 ^ 56 % 256, u / 2 ^ 48 % 256, u / 2 ^ 40 % 256,
          u / 2 ^ 32 % 256, u / 2 ^ 24 % 256, u / 2 ^ 16 % 256, u / 2 ^ 8 % 256, u % 256]),
          rest) := fun u => rfl
  simp only [writeLongBytes, List.cons_append, List.nil_append]
  rw [key, beNat_writeLong _ hu64]
  have hti : toInt64 ((p % (2 ^ 64)).toNat) = p := by
    unfold toInt64
    rw [Nat.mod_eq_of_lt hu64]
    split
    · omega
    · omega
  rw [hti]

/-- C6 — state-machine sequencing: `connect` on a client whose state is
above `Idle` fails with the already-connected error; `Status` on an `Idle`
client (with a successful dial, a protocol version in the non-negative
`int32` range and a host within the string bound) first dials, then sends
the handshake frame reaching `HandshakeComplete`, and only then sends the
status request `[1, 0]` — for every inbound stream. -/
theorem c6_state_machine :
    (∀ (c : Client) (dialOk : Bool), c.state ≠ .Idle →
      connect c dialOk = ([], .err .alreadyConnected)) ∧
    (∀ (c : Client) (inbound : List Nat), c.state = .Idle → 0 ≤ c.protocol →
      c.protocol < 2 ^ 31 → c.host.length ≤ 32767 →
      ∃ (hbody hframe : List Nat) (c1 : Client),
        buildHandshakeBody c 1 = .ok hbody ∧
        build 0 hbody = .built hframe ∧
        connectAndHandshake c 1 true = ([.dial, .send hframe], .ok c1) ∧
        c1.state = .HandshakeComplete ∧
        (status c true inbound).1 = [.dial, .send hframe, .send [1, 0]]) := by
  constructor
  · intro c dialOk hne
    cases hc : c.state with
    | Idle => exact absurd hc hne
    | Connected => simp [connect, hc, stateVal]
    | HandshakeComplete => simp [connect, hc, stateVal]
  · intro c inbound hst hp0 hp31 hhost
    have hpv := encodeVarInt_nonneg c.protocol hp0 hp31
    have hst1 : encodeVarInt 1 = some [1] := by decide
    have hhostc : ¬((c.host.length : Int) > MaxStringLength) := by
      unfold MaxStringLength
      have h1 : (c.host.length : Int) ≤ 32767 := by exact_mod_cast hhost
      omega
    have hbodyEq : buildHandshakeBody c 1
        = .ok (putUvarint c.protocol.toNat ++ putUvarint c.host.length ++ c.host
            ++ writeShortBytes c.port ++ [1]) := by
      unfold buildHandshakeBody
      rw [hpv, hst1]
      simp [hhostc]
    set hbody := putUvarint c.protocol.toNat ++ putUvarint c.host.length ++ c.host
        ++ writeShortBytes c.port ++ [1] with hhb
    have hpvlen : (putUvarint c.protocol.toNat).length ≤ 5 := by
      refine putUvarint_len_le _ 5 (by omega) ?_ ?_
      · norm_num; omega
      · norm_num; omega
    have hhlen : (putUvarint c.host.length).length ≤ 5 := by
      refine putUvarint_len_le _ 5 (by omega) ?_ ?_
      · norm_num; omega
      · norm_num; omega
    have hshort : (writeShortBytes c.port).length = 2 := rfl
    have hbl : hbody.length ≤ 32780 := by
      rw [hhb]
      simp [List.length_append, hshort]
      omega
    have henc0 : encodeVarInt 0 = some [0] := by decide
    have hpk : ([0] ++ hbody).length ≤ 32781 := by
      simp [List.length_append]
      omega
    have hcondB : ¬((([0] ++ hbody).length : Int) > MaxPacketLength) := by
      unfold MaxPacketLength
      have h1 : (([0] ++ hbody).length : Int) ≤ 32781 := by exact_mod_cast hpk
      omega
    have henc2 : encodeVarInt ((([0] ++ hbody).length : Int))
        = some (putUvarint ([0] ++ hbody).length) := by
      have h1 := encodeVarInt_nonneg ((([0] ++ hbody).length : Int)) (by positivity)
        (by
          have h2 : (([0] ++ hbody).length : Int) ≤ 32781 := by exact_mod_cast hpk
          omega)
      simpa using h1
    have hbuild : build 0 hbody
        = .built (putUvarint ([0] ++ hbody).length ++ ([0] ++ hbody)) := by
      unfold build
      rw [henc0]
      simp only [hcondB, if_false, henc2]
    set hframe := putUvarint ([0] ++ hbody).length ++ ([0] ++ hbody) with hhf
    have hbodyEq' : buildHandshakeBody { c with state := ConnState.Connected } 1
        = .ok hbody := hbodyEq
    have hcah : connectAndHandshake c 1 true
        = ([.dial, .send hframe], .ok { c with state := .HandshakeComplete }) := by
      unfold connectAndHandshake connect sendHandshake
      rw [hst]
      simp only [stateVal]
      norm_num
      simp only [hbodyEq', hbuild]
      exact ⟨trivial, trivial⟩
    have hsreq : sendStatusRequest = ([Ev.send [1, 0]], Res.ok ()) := by decide
    have htrace : (status c true inbound).1 = [.dial, .send hframe, .send [1, 0]] := by
      unfold status
      rw [hcah, hsreq]
      cases hrec : recvStatusResponse inbound <;> simp
    exact ⟨hbody, hframe, { c with state := .HandshakeComplete }, hbodyEq, hbuild, hcah,
      rfl, htrace⟩

/-- C7 — ping semantics: from `HandshakeComplete`, a pong whose 8-byte
payload `p` differs from the timestamp `ts` sent makes `Ping` return the
wrong-pong-id error together with the measured latency (`elapsed`, nonzero
under the stated hypothesis) — not the zero of the other error paths — and
leaves the state unchanged; a pong carrying exactly `ts` returns the latency
with no error and resets the client state to `Idle`. -/
theorem c7_ping_semantics (c : Client) (hst : c.state = .HandshakeComplete)
    (ts p elapsed : Int)
    (hts1 : -(2 ^ 63) ≤ ts) (hts2 : ts < 2 ^ 63)
    (hp1 : -(2 ^ 63) ≤ p) (hp2 : p < 2 ^ 63) (hel : 0 < elapsed) :
    (p ≠ ts →
      ping c true ts elapsed (9 :: 1 :: writeLongBytes p)
        = ([.send (9 :: 1 :: writeLongBytes ts)], .ret elapsed (some .wrongPongId) c)
      ∧ elapsed ≠ 0) ∧
    (∃ c1 : Client,
      ping c true ts elapsed (9 :: 1 :: writeLongBytes ts)
        = ([.send (9 :: 1 :: writeLongBytes ts)], .ret elapsed none c1)
      ∧ c1.state = .Idle) := by
  have hcah : connectAndHandshake c 1 true = ([], .ok c) := by
    unfold connectAndHandshake
    simp [stateVal, hst]
  have hwl : (writeLongBytes ts).length = 8 := by
    simp [writeLongBytes]
  have hfr : build 1 (writeLongBytes ts) = .built (9 :: 1 :: writeLongBytes ts) := by
    unfold build
    rw [show encodeVarInt 1 = some [1] from by decide]
    simp [hwl, MaxPacketLength, show encodeVarInt (9 : Int) = some [9] from by decide]
  have hpong : ∀ q : Int, -(2 ^ 63) ≤ q → q < 2 ^ 63 →
      recvPong (9 :: 1 :: writeLongBytes q) = .ok q := by
    intro q hq1 hq2
    have hnib : newInboundPacket (9 :: 1 :: writeLongBytes q) = .ok 1 (writeLongBytes q) := by
      unfold newInboundPacket
      have hrv := readVarInt_enc 9 (1 :: writeLongBytes q) (by norm_num)
      rw [show putUvarint 9 = [9] from by decide] at hrv
      rw [show (9 : Nat) :: 1 :: writeLongBytes q = [9] ++ (1 :: writeLongBytes q) from rfl, hrv]
      have hlq : (writeLongBytes q).length = 8 := by simp [writeLongBytes]
      have hlen9 : (1 :: writeLongBytes q).length = 9 := by simp [hlq]
      have htk : (1 :: writeLongBytes q).take 9 = 1 :: writeLongBytes q := by
        rw [← hlen9, List.take_length]
      have hid : readUvarint (1 :: writeLongBytes q) = .ok (1, writeLongBytes q) := by
        have h := readUvarint_enc 1 (writeLongBytes q) (by norm_num)
        rw [show putUvarint 1 = [1] from by decide] at h
        simpa using h
      simp [MaxPacketLength, hlen9, htk, hid, toInt32]
    unfold recvPong
    rw [hnib]
    have hrl : readLong (writeLongBytes q) = .ok (q, []) := by
      have h := readLong_write q [] hq1 hq2
      simpa using h
    simp [hrl]
  constructor
  · intro hne
    refine ⟨?_, by omega⟩
    unfold ping
    rw [hcah, hfr, hpong p hp1 hp2]
    simp [hne]
  · refine ⟨{ c with state := .Idle }, ?_, rfl⟩
    unfold ping
    rw [hcah, hfr, hpong ts hts1 hts2]
    simp

/-- C6 witness. -/
theorem c6_witness :
    connect ⟨[], 0, 47, .Connected⟩ true = ([], .err .alreadyConnected) ∧
    ∃ (hbody hframe : List Nat) (c1 : Client),
      buildHandshakeBody ⟨[104], 25565, 47, .Idle⟩ 1 = .ok hbody ∧
      build 0 hbody = .built hframe ∧
      connectAndHandshake ⟨[104], 25565, 47, .Idle⟩ 1 true
        = ([.dial, .send hframe], .ok c1) ∧
      c1.state = .HandshakeComplete ∧
      (status ⟨[104], 25565, 47, .Idle⟩ true []).1 = [.dial, .send hframe, .send [1, 0]] :=
  ⟨c6_state_machine.1 ⟨[], 0, 47, .Connected⟩ true (by decide),
   c6_state_machine.2 ⟨[104], 25565, 47, .Idle⟩ [] rfl (by norm_num) (by norm_num)
     (by norm_num)⟩

/-- C7 witness. -/
theorem c7_witness :
    (ping ⟨[], 0, 47, .HandshakeComplete⟩ true 5 1 (9 :: 1 :: writeLongBytes 6)
        = ([.send (9 :: 1 :: writeLongBytes 5)],
           .ret 1 (some .wrongPongId) ⟨[], 0, 47, .HandshakeComplete⟩)
      ∧ (1 : Int) ≠ 0) ∧
    (∃ c1 : Client,
      ping ⟨[], 0, 47, .HandshakeComplete⟩ true 5 1 (9 :: 1 :: writeLongBytes 5)
        = ([.send (9 :: 1 :: writeLongBytes 5)], .ret 1 none c1) ∧ c1.state = .Idle) :=
  ⟨(c7_ping_semantics ⟨[], 0, 47, .HandshakeComplete⟩ rfl 5 6 1 (by norm_num) (by norm_num)
      (by norm_num) (by norm_num) (by norm_num)).1 (by norm_num),
   (c7_ping_semantics ⟨[], 0, 47, .HandshakeComplete⟩ rfl 5 5 1 (by norm_num) (by norm_num)
      (by norm_num) (by norm_num) (by norm_num)).2⟩

/-- C8 — the fingerprint cascade classifies the CraftBukkit/Spigot
disconnect: under `translate = "disconnect.genericReason"`, the quoted Netty
`PacketLoginInStart` message as first substitution argument yields the label
`craftbukkit` with no error. -/
theorem c8_craftbukkit_case :
    fingerprintMsgV1
      { translate := "disconnect.genericReason",
        With := ["Internal Exception: io.netty.handler.codec.DecoderException: java.io.IOException: Packet login/0 (PacketLoginInStart) was larger than I expected, found 1 bytes extra whilst reading packet 0"],
        text := "" }
      = ("craftbukkit", none) := by
  decide

/-- C9 — the fingerprint classification of a disconnect with
`translate = "multiplayer.disconnect.outdated_client"` and
`with = ["1.20.2"]`: the version-mismatch check reports the mismatch
carrying `"1.20.2"` and the classification returns the label `unknown`
together with the version-mismatch error. -/
theorem c9_outdated_client_mismatch :
    versionMismatchV2
      { translate := "multiplayer.disconnect.outdated_client",
        With := ["1.20.2"], text := "" } = (true, "1.20.2") ∧
    classifyDisconnectV2
      { translate := "multiplayer.disconnect.outdated_client",
        With := ["1.20.2"], text := "" }
      = ("unknown", some (.versionMismatch "1.20.2")) := by
  decide

end Mclib
